import Mathlib

/-!
Shallow embedding of the aro-hcp-intelhub core pipelines: the PR ingestion
PROCESS phase, the embedding document builder, the cache-aware trace-image
service, the trace-image cache upsert, the PR/doc vector search, the docs
ingestion loop and the MCP tool argument parsing.  Each definition is
translated from the corresponding Go source file; machine integers are
modelled as `Int`/`Nat`, Go `error` values as `Except`/`Option`, Go byte
slices of UTF-8 text as Lean `String` (truncation counts characters where
the Go code counts bytes), float vectors as `List Rat`, and SQL tables as
Lean lists of rows.
-/

/-! ## Data model (internal/mcp/tools/types, internal/db/models.go) -/

/-- Component entry of a trace response (`ComponentTraceInfo` in
`internal/mcp/tools/types`): `Error` is a nullable string. -/
structure ComponentTraceInfo where
  name : String
  registry : String
  repository : String
  digest : String
  sourceSHA : Option String
  sourceRepoURL : Option String
  error : Option String
  deriving DecidableEq, Repr

/-- Trace response (`TraceImagesResponse` in `internal/mcp/tools/types`):
a commit/environment pair with per-component results and a top-level
error list. -/
structure TraceImagesResponse where
  commitSHA : String
  environment : String
  components : List ComponentTraceInfo
  errors : List String
  deriving DecidableEq, Repr

/-- PR record (`PREmbedding` in `internal/db/models.go`): `embedding`,
`richDescription`, `failureReason`, `failureCategory` and `processedAt`
are nullable; the embedding is a float vector modelled over `Rat`. -/
structure PREmbedding where
  prNumber : Int
  prTitle : String
  prBody : String
  author : String
  state : String
  baseRef : String
  embedding : Option (List Rat)
  richDescription : Option String
  analysisSuccessful : Bool
  failureReason : Option String
  failureCategory : Option String
  processedAt : Option Nat
  deriving DecidableEq, Repr

/-- Document chunk row (`DocumentChunk` in `internal/db/models.go`):
`chunkIndex` is the 0-based index assigned by the docs ingester, and
`embedding` is NOT NULL in the schema. -/
structure DocumentChunk where
  id : String
  repo : String
  component : Option String
  path : String
  commitSHA : String
  docType : String
  chunkIndex : Nat
  chunkText : String
  embedding : List Rat
  embeddingModel : String
  deriving DecidableEq, Repr

/-! ## Embedding document builder (internal/ingestion/embeddings/client.go) -/

/-- Translation of `BuildDocument(prTitle, prBody, richDescription)`
(`internal/ingestion/embeddings/client.go` lines 85-104): concatenates
"PR Title: ", the title, "\n\nPR Description: ", the body truncated to
2000 characters, and, only when `richDescription` is non-empty,
"\n\nAI Analysis: " with the rich description truncated to 3000
characters. -/
def BuildDocument (prTitle prBody richDescription : String) : String :=
  let body := if prBody.length > 2000 then prBody.take 2000 else prBody
  let base := "PR Title: " ++ prTitle ++ "\n\nPR Description: " ++ body
  if richDescription ≠ "" then
    let rich :=
      if richDescription.length > 3000 then richDescription.take 3000
      else richDescription
    base ++ "\n\nAI Analysis: " ++ rich
  else
    base

/-! ## Diff analyzer outcome types (internal/ingestion/diff, types part) -/

/-- Result record of the diff analyzer (`Analysis` in the diff package):
empty strings stand for Go zero values. -/
structure Analysis where
  richDescription : String := ""
  analysisSuccessful : Bool := false
  failureReason : String := ""
  failureCategory : String := ""
  deriving DecidableEq, Repr

/-- Go `error` values reaching `GetFailureDetails`: either a
`context.DeadlineExceeded`-wrapping error or any other error, both
carrying their message text. -/
inductive LLMError where
  | deadlineExceeded (msg : String)
  | other (msg : String)
  deriving DecidableEq, Repr

/-- Model of Go `strings.TrimSpace`: removes leading and trailing
whitespace characters.  Defined over the character list so that it
evaluates inside the kernel. -/
def trimSpace (s : String) : String :=
  String.mk
    (((s.data.dropWhile Char.isWhitespace).reverse.dropWhile
        Char.isWhitespace).reverse)

/-- Translation of `GetFailureDetails` (diff package types file lines
138-150): deadline errors map to category "timeout" with a prefixed
reason; other errors keep their trimmed message (or "unknown failure"
when blank) with category "error". -/
def GetFailureDetails : LLMError → String × String
  | .deadlineExceeded msg => ("timeout: " ++ trimSpace msg, "timeout")
  | .other msg =>
      let m := trimSpace msg
      (if m = "" then "unknown failure" else m, "error")

/-- Translation of `strPtr` (`internal/ingestion` generator helpers):
empty string becomes a nil pointer. -/
def strPtr (s : String) : Option String :=
  if s = "" then none else some s

/-! ## PROCESS phase: processSinglePR (src/unnamed/part_013 lines 204-272) -/

/-- Observable effects of one `processSinglePR` call, in program order:
the embedding request (with the exact document text sent), the diff
analyzer invocation, and the final `UpdatePRProcessing` row update. -/
inductive ProcessEvent where
  | embedCall (doc : String)
  | analyzeCall (prNumber : Int)
  | updateCall (prNumber : Int) (hasEmbedding : Bool)
      (richDescription : Option String) (analysisSuccessful : Bool)
      (failureReason : Option String) (failureCategory : Option String)
  deriving DecidableEq, Repr

/-- Translation of `processSinglePR` (src/unnamed/part_013 lines
204-272) as the ordered list of its external effects.  The Go code
first builds `document := embeddings.BuildDocument(pr.PRTitle,
pr.PRBody, "")` and calls `EmbedTexts`; only afterwards, when a vector
came back and an analyzer is configured, does it call
`analyzer.Analyze`; finally it calls `UpdatePRProcessing`.  The
embedding backend and the analyzer are oracles (`embedOracle`,
`analyzeOracle`); `analyzerEnabled` models `analyzer != nil`. -/
def processSinglePR (pr : PREmbedding)
    (embedOracle : String → Except LLMError (List (List Rat)))
    (analyzerEnabled : Bool)
    (analyzeOracle : Int → Except LLMError Analysis) : List ProcessEvent :=
  let document := BuildDocument pr.prTitle pr.prBody ""
  match embedOracle document with
  | .error e =>
      let rc := GetFailureDetails e
      [.embedCall document,
       .updateCall pr.prNumber false none false (strPtr rc.1) (strPtr rc.2)]
  | .ok [] =>
      [.embedCall document,
       .updateCall pr.prNumber false none false
         (strPtr "embedding returned no vectors") (strPtr "empty_embedding")]
  | .ok (_ :: _) =>
      if analyzerEnabled then
        match analyzeOracle pr.prNumber with
        | .error e =>
            let rc := GetFailureDetails e
            [.embedCall document, .analyzeCall pr.prNumber,
             .updateCall pr.prNumber true none false (strPtr rc.1) (strPtr rc.2)]
        | .ok analysis =>
            [.embedCall document, .analyzeCall pr.prNumber,
             .updateCall pr.prNumber true
               (if analysis.richDescription ≠ "" then some analysis.richDescription else none)
               analysis.analysisSuccessful
               (if analysis.failureReason ≠ "" then some analysis.failureReason else none)
               (if analysis.failureCategory ≠ "" then some analysis.failureCategory else none)]
      else
        [.embedCall document,
         .updateCall pr.prNumber true none false none none]

/-! ## Cache-aware trace service (internal/traceimages/service.go) -/

/-- Translation of `hasErrors` (`internal/traceimages/service.go` lines
93-103): true when the top-level error list is non-empty or some
component has a non-nil, non-empty error string. -/
def hasErrors (resp : TraceImagesResponse) : Bool :=
  if resp.errors.length > 0 then true
  else resp.components.any (fun comp => comp.error.getD "" ≠ "")

/-- Outcome of one `Service.TraceImages` call: the response handed to
the caller together with the value passed to `TraceImageCacheUpsert`
(`none` when no cache write was attempted). -/
structure TraceServiceOutcome where
  response : TraceImagesResponse
  cacheWrite : Option TraceImagesResponse
  deriving DecidableEq, Repr

/-- Translation of `Service.TraceImages` (`internal/traceimages/service.go`
lines 25-63) with the Store lookup and the Tracer as oracles.
`cacheLookup` is the result of `TraceImageCacheGet` (error, miss, or
hit) and `tracerResult` the result of `traceAndBuild`.  An empty commit
or environment is rejected; a hit returns the cached response without
tracing; on a miss the tracer runs, and the response is written to the
cache only when `hasErrors` is false. -/
def ServiceTraceImages (commitSHA environment : String)
    (cacheLookup : Except String (Option TraceImagesResponse))
    (tracerResult : Except String TraceImagesResponse) :
    Except String TraceServiceOutcome :=
  if commitSHA = "" ∨ environment = "" then
    .error "commit and environment are required"
  else
    match cacheLookup with
    | .error e => .error e
    | .ok (some cached) => .ok { response := cached, cacheWrite := none }
    | .ok none =>
        match tracerResult with
        | .error e => .error e
        | .ok resp =>
            if hasErrors resp then
              .ok { response := resp, cacheWrite := none }
            else
              .ok { response := resp, cacheWrite := some resp }

/-! ## Store: StorePR (src/unnamed/part_008 lines 201-204) -/

/-- Translation of `StorePR` (src/unnamed/part_008 lines 201-204): an
`INSERT ... ON CONFLICT (pr_number) DO NOTHING` on the `pr_embeddings`
table, modelled as a list of rows.  When a row with the same
`pr_number` exists the insert is a no-op; otherwise the record is
appended. -/
def StorePR (table : List PREmbedding) (pr : PREmbedding) : List PREmbedding :=
  if table.any (fun r => r.prNumber = pr.prNumber) then table
  else table ++ [pr]

/-! ## MCP tool argument parsing (internal/mcp/tools/utils.go) -/

/-- Go `any` values that can arrive as the `pr_number` argument of a
tool call: a JSON number decodes to `float64`, a programmatic caller
may pass an `int`, and anything else (string, null, absent) falls to
the default branch. -/
inductive GoValue where
  | float (x : Rat)
  | int (n : Int)
  | other
  deriving DecidableEq, Repr

/-- Translation of `parseIntArgument` (`internal/mcp/tools/utils.go`
lines 8-23).  The `float64` branch rejects only strictly negative
values (`v < 0`) and converts with `int(v)` (truncation toward zero,
which on the non-negative branch is the floor); the `int` branch
rejects `v <= 0`; any other type is "pr_number must be provided". -/
def parseIntArgument : GoValue → Except String Int
  | .float v =>
      if v < 0 then .error "pr_number must be positive"
      else .ok ⌊v⌋
  | .int n =>
      if n ≤ 0 then .error "pr_number must be positive"
      else .ok n
  | .other => .error "pr_number must be provided"

/-- Result of one `get_pr_details` tool invocation: either a tool error
result carrying a message, or a serialized PR lookup for a number. -/
inductive ToolResult where
  | errorResult (msg : String)
  | textResult (prNumber : Int) (found : Bool)
  deriving DecidableEq, Repr

/-- Translation of `GetPRDetailsHandler.ToolAdapter`
(`internal/mcp/tools/get_pr_details.go` lines 40-56) with the Store as
an oracle: on a parse error the adapter returns a tool error result
without touching the Store; otherwise it queries `GetPRByNumber` and
serializes the (possibly empty) result.  The second component records
whether the Store was queried. -/
def GetPRDetailsToolAdapter (store : Int → Option PREmbedding)
    (arg : GoValue) : ToolResult × Bool :=
  match parseIntArgument arg with
  | .error e => (.errorResult e, false)
  | .ok n => (.textResult n (store n).isSome, true)

/-! ## Trace image cache upsert (src/unnamed/part_008 lines 269-290) -/

/-- Row of the `trace_image_cache` table (`TraceImageCache` model):
identity is `(commit_sha, environment)`; `inserted_at` is modelled as a
natural-number timestamp. -/
structure TraceImageCache where
  commitSHA : String
  environment : String
  response : TraceImagesResponse
  insertedAt : Nat
  deriving DecidableEq, Repr

/-- Ordering used by the trim step of `TraceImageCacheUpsert`: row `a`
is at least as new as row `b` (`inserted_at DESC`). -/
def newerEq (a b : TraceImageCache) : Prop := b.insertedAt ≤ a.insertedAt

instance : DecidableRel newerEq :=
  fun a b => Nat.decLe b.insertedAt a.insertedAt

instance : IsTotal TraceImageCache newerEq :=
  ⟨fun a b => Nat.le_total b.insertedAt a.insertedAt⟩

instance : IsTrans TraceImageCache newerEq :=
  ⟨fun _ _ _ hab hbc => Nat.le_trans hbc hab⟩

/-- Table contents after the `INSERT ... ON CONFLICT (commit_sha,
environment) DO UPDATE SET response_json = ..., inserted_at = now()` of
`TraceImageCacheUpsert`: the row for the key is replaced (or added)
with `inserted_at = now`. -/
def traceCacheInsert (table : List TraceImageCache)
    (commitSHA environment : String) (resp : TraceImagesResponse)
    (now : Nat) : List TraceImageCache :=
  { commitSHA := commitSHA, environment := environment,
    response := resp, insertedAt := now } ::
    table.filter
      (fun r => ¬(r.commitSHA = commitSHA ∧ r.environment = environment))

/-- Rows surviving the `DELETE ... WHERE ctid IN (SELECT ctid FROM
trace_image_cache ORDER BY inserted_at DESC OFFSET ?)` trim: the first
`max` rows in descending `inserted_at` order.  SQL tables are
unordered, so the model fixes insertion sort as the representative
ordering. -/
def traceCacheTrim (max : Int) (table : List TraceImageCache) :
    List TraceImageCache :=
  (table.insertionSort newerEq).take max.toNat

/-- Translation of `TraceImageCacheUpsert` (src/unnamed/part_008 lines
269-290): skipped entirely when `TraceCacheMax <= 0`; otherwise the
idempotent upsert runs and the table is trimmed to the `TraceCacheMax`
newest rows by `inserted_at`. -/
def TraceImageCacheUpsert (traceCacheMax : Int)
    (table : List TraceImageCache) (commitSHA environment : String)
    (resp : TraceImagesResponse) (now : Nat) : List TraceImageCache :=
  if traceCacheMax ≤ 0 then table
  else traceCacheTrim traceCacheMax
    (traceCacheInsert table commitSHA environment resp now)

/-! ## Vector search (src/unnamed/part_008 lines 136-179) -/

/-- Ordering produced by `ORDER BY distance` over rows paired with
their computed cosine distance. -/
def byDistance {α : Type} (a b : α × Rat) : Prop := a.2 ≤ b.2

instance {α : Type} : DecidableRel (byDistance (α := α)) :=
  fun a b => Rat.instDecidableLe a.2 b.2

instance {α : Type} : IsTotal (α × Rat) byDistance :=
  ⟨fun a b => le_total a.2 b.2⟩

instance {α : Type} : IsTrans (α × Rat) byDistance :=
  ⟨fun _ _ _ hab hbc => le_trans hab hbc⟩

/-- Translation of `SearchPRs` (src/unnamed/part_008 lines 136-156 and
`internal/db/storage.go` lines 87-107): `limit <= 0` defaults to 10;
rows with `embedding IS NULL` are excluded; each remaining row is
paired with `embedding <=> query` and the result is ordered by that
distance ascending, truncated to the limit.  The cosine-distance
operator `<=>` is the oracle `dist`. -/
def SearchPRs (dist : List Rat → List Rat → Rat)
    (table : List PREmbedding) (queryVec : List Rat) (limit : Int) :
    List (PREmbedding × Rat) :=
  let lim := if limit ≤ 0 then 10 else limit
  let rows := table.filter (fun r => r.embedding.isSome)
  let withDist := rows.map (fun r => (r, dist (r.embedding.getD []) queryVec))
  (withDist.insertionSort byDistance).take lim.toNat

/-- Translation of `SearchDocs` (src/unnamed/part_008 lines 158-179):
`limit <= 0` defaults to 10; optional component and repo filters are
ANDed (a nil or empty-string filter is skipped); rows are paired with
`substring(chunk_text for 400)` and their distance to the query and
ordered by distance ascending, truncated to the limit. -/
def SearchDocs (dist : List Rat → List Rat → Rat)
    (table : List DocumentChunk) (queryVec : List Rat) (limit : Int)
    (component repo : Option String) : List ((DocumentChunk × String) × Rat) :=
  let lim := if limit ≤ 0 then 10 else limit
  let rows := table.filter (fun r =>
    (match component with
     | some c => if c ≠ "" then r.component.getD "" == c else true
     | none => true) &&
    (match repo with
     | some rp => if rp ≠ "" then r.repo == rp else true
     | none => true))
  let withDist := rows.map
    (fun r => ((r, r.chunkText.take 400), dist r.embedding queryVec))
  (withDist.insertionSort byDistance).take lim.toNat

/-! ## MCP search service (internal/mcp/tools/db_search_adapter.go) -/

/-- Serialized PR search result (`types.PRResult` with the similarity
field): the service converts distance to `1 - distance/2`. -/
structure PRResult where
  prNumber : Int
  similarity : Rat
  deriving DecidableEq, Repr

/-- Serialized doc search result (`types.DocResult`): similarity is
`1 - distance`. -/
structure DocResult where
  repo : String
  path : String
  snippet : String
  similarity : Rat
  deriving DecidableEq, Repr

/-- Translation of `DBSearchService.SearchPRs`
(`internal/mcp/tools/db_search_adapter.go` lines 22-47): a query blank
after trimming returns an empty list immediately; otherwise the query
is embedded (one call), an empty vector list returns an empty result,
and rows from the Store search are mapped to results with
`similarity = 1 - distance/2`.  The second component counts embedding
calls. -/
def DBSearchServiceSearchPRs (embed : String → Except String (List (List Rat)))
    (dist : List Rat → List Rat → Rat) (table : List PREmbedding)
    (query : String) (limit : Int) :
    Except String (List PRResult) × Nat :=
  if trimSpace query = "" then (.ok [], 0)
  else
    match embed query with
    | .error e => (.error ("embed query: " ++ e), 1)
    | .ok [] => (.ok [], 1)
    | .ok (v :: _) =>
        let rows := SearchPRs dist table v limit
        (.ok (rows.map (fun row =>
          { prNumber := row.1.prNumber, similarity := 1 - row.2 / 2 })), 1)

/-- Translation of `DBSearchService.SearchDocs`
(`internal/mcp/tools/db_search_adapter.go` lines 49-79): same blank
check and embedding call; rows are mapped to results with
`similarity = 1 - distance`. -/
def DBSearchServiceSearchDocs (embed : String → Except String (List (List Rat)))
    (dist : List Rat → List Rat → Rat) (table : List DocumentChunk)
    (query : String) (limit : Int) (component repo : Option String) :
    Except String (List DocResult) × Nat :=
  if trimSpace query = "" then (.ok [], 0)
  else
    match embed query with
    | .error e => (.error ("embed query: " ++ e), 1)
    | .ok [] => (.ok [], 1)
    | .ok (v :: _) =>
        let rows := SearchDocs dist table v limit component repo
        (.ok (rows.map (fun row =>
          { repo := row.1.1.repo, path := row.1.1.path,
            snippet := row.1.2, similarity := 1 - row.2 })), 1)

/-! ## Docs ingestion (internal/docs/ingester.go lines 53-136) -/

/-- Translation of `classifyDocType` (`internal/docs/ingester.go` lines
193-205): README files, paths under a docs or adr directory, otherwise
"other".  `filepath.Base` is modelled as the last path component. -/
def classifyDocType (path : String) : String :=
  let base := (path.splitOn "/").getLastD path
  if base.toLower = "readme.md" then "readme"
  else if (path.toLower.splitOn "/docs/").length > 1 then "docs"
  else if (path.toLower.splitOn "/adr/").length > 1 then "adr"
  else "other"

/-- Translation of `guessURL` (`internal/docs/ingester.go` lines
207-213): repo names containing a slash are assumed to live on the
public hosting service. -/
def guessURL (repoName path ref : String) : String :=
  if (repoName.splitOn "/").length > 1 then
    "https://github.com/" ++ repoName ++ "/blob/" ++ ref ++ "/" ++ path
  else ""

/-- Document chunk as staged by the ingester loop
(`internal/docs/ingester.go` lines 109-121).  The content-addressed
`sha256Hex` id is modelled by its pre-image string (the hash itself is
an injective coding irrelevant to the claims); the ingester leaves
`component` at its zero value. -/
def mkIngestedChunk (repoName path ref model : String) (idx : Nat)
    (part : String) (vec : List Rat) : DocumentChunk :=
  { id := repoName ++ ":" ++ path ++ ":" ++ ref ++ ":" ++ toString idx ++ ":" ++ part,
    repo := repoName, component := none, path := path, commitSHA := ref,
    docType := classifyDocType path, chunkIndex := idx, chunkText := part,
    embedding := vec, embeddingModel := model }

/-- Inner loop of `ingestRepoAtomic` over the indexed chunks of one
file (`internal/docs/ingester.go` lines 94-127): a blank chunk is
skipped; when `MaxChunks > 0` and the writer count reached it, the
loop breaks; a failed embedding call (`embed part = none`) is skipped
silently; otherwise the chunk is staged under its index in the
splitter's output and the count grows.  Returns the staged chunks and
the final writer count. -/
def processParts (embed : String → Option (List Rat)) (maxChunks : Int)
    (repoName path ref model : String) :
    Nat → List (Nat × String) → List DocumentChunk × Nat
  | count, [] => ([], count)
  | count, (idx, part) :: rest =>
      if trimSpace part = "" then
        processParts embed maxChunks repoName path ref model count rest
      else if maxChunks > 0 ∧ maxChunks ≤ (count : Int) then
        ([], count)
      else
        match embed part with
        | none => processParts embed maxChunks repoName path ref model count rest
        | some vec =>
            let doc := mkIngestedChunk repoName path ref model idx part vec
            let next := processParts embed maxChunks repoName path ref model
              (count + 1) rest
            (doc :: next.1, next.2)

/-- Outer loop of `ingestRepoAtomic` over the selected files
(`internal/docs/ingester.go` lines 83-128): before each file the chunk
cap is checked; a file whose content cannot be read (`none`) is
skipped silently; otherwise its splitter output is processed by
`processParts`. -/
def processFiles (split : String → List String)
    (embed : String → Option (List Rat)) (maxChunks : Int)
    (repoName ref model : String) :
    Nat → List (String × Option String) → List DocumentChunk × Nat
  | count, [] => ([], count)
  | count, f :: rest =>
      if maxChunks > 0 ∧ maxChunks ≤ (count : Int) then
        ([], count)
      else
        match f.2 with
        | none => processFiles split embed maxChunks repoName ref model count rest
        | some content =>
            let parts := split content
            let inner := processParts embed maxChunks repoName f.1 ref model
              count parts.enum
            let next := processFiles split embed maxChunks repoName ref model
              inner.2 rest
            (inner.1 ++ next.1, next.2)

/-- Translation of `ingestRepoAtomic` (`internal/docs/ingester.go`
lines 53-136) from the point where the selected file list is known.
`selected` pairs each file path with the result of `ShowFile` (`none`
models a read error).  The batch writer's transaction, `Add` and
`Commit` are modelled as succeeding; `Commit` deletes every prior row
of the repository and inserts the staged rows
(`pgDocumentBatchWriter.Commit`, src/unnamed/part_008 lines 367-399),
so the run always reports success for the repository. -/
def ingestRepoAtomic (split : String → List String)
    (embed : String → Option (List Rat)) (maxChunks : Int)
    (table : List DocumentChunk) (repoName ref model : String)
    (selected : List (String × Option String)) :
    Except String (List DocumentChunk) :=
  let staged :=
    (processFiles split embed maxChunks repoName ref model 0 selected).1
  .ok (table.filter (fun d => d.repo ≠ repoName) ++ staged)

/-! ## Diff analyzer (internal/ingestion/diff/analyzer.go lines 37-104) -/

/-- File chunk produced by `splitDiffIntoFiles`: one file's portion of
the unified diff. -/
structure FileChunk where
  path : String
  content : String
  deriving DecidableEq, Repr

/-- Chunk document handed to the LLM map stage (`Document` in the diff
package). -/
structure Document where
  filePath : String
  content : String
  tokenCount : Int
  deriving DecidableEq, Repr

/-- Map stage of `Analyze` (`internal/ingestion/diff/analyzer.go` lines
78-88): calls the LLM once per chunk document, collecting the outputs,
stopping at the first error.  The second component counts the LLM
calls made. -/
def mapStage (mapChunk : Document → Except LLMError String) :
    List Document → Except LLMError (List String) × Nat
  | [] => (.ok [], 0)
  | d :: rest =>
      match mapChunk d with
      | .error e => (.error e, 1)
      | .ok s =>
          let next := mapStage mapChunk rest
          match next.1 with
          | .error e => (.error e, next.2 + 1)
          | .ok ss => (.ok (s :: ss), next.2 + 1)

/-- Translation of `Analyzer.Analyze`
(`internal/ingestion/diff/analyzer.go` lines 37-104).  The stages that
touch git and the LLM are oracles: `fetchDiff` is
`fetchConsolidatedDiff`, `splitFiles` is `splitDiffIntoFiles`,
`filterGen` is `filterGeneratedFiles` (returning included and skipped
chunks), `buildDocs` is `buildDocuments`, and `mapChunk` /
`reduceSummary` are the two LLM calls.  The result pairs the returned
`Analysis` with the number of LLM calls made.  When the number of
chunk documents exceeds 100 the analyzer fails with category
"large_diff" before any LLM call. -/
def Analyze (enabled : Bool) (fetchDiff : Except String String)
    (splitFiles : String → List FileChunk)
    (filterGen : List FileChunk → List FileChunk × List FileChunk)
    (buildDocs : List FileChunk → List Document)
    (mapChunk : Document → Except LLMError String)
    (reduceSummary : List String → Except LLMError String)
    (title : String) : Analysis × Nat :=
  if ¬enabled then
    ({ analysisSuccessful := false, failureReason := "diff analyzer disabled",
       failureCategory := "disabled" }, 0)
  else
    match fetchDiff with
    | .error e => ({ analysisSuccessful := false, failureReason := e }, 0)
    | .ok diffText =>
        let fileChunks := splitFiles diffText
        if fileChunks = [] then
          ({ analysisSuccessful := false, failureReason := "no diff content" }, 0)
        else
          let included := (filterGen fileChunks).1
          if included = [] then
            ({ analysisSuccessful := false,
               failureReason := "all files filtered as generated" }, 0)
          else
            let docs := buildDocs included
            if docs.length > 100 then
              ({ analysisSuccessful := false,
                 failureReason := "large diff detected",
                 failureCategory := "large_diff" }, 0)
            else
              match mapStage mapChunk docs with
              | (.error e, n) =>
                  let rc := GetFailureDetails e
                  ({ analysisSuccessful := false, failureReason := rc.1,
                     failureCategory := rc.2 }, n)
              | (.ok summaries, n) =>
                  match reduceSummary summaries with
                  | .error e =>
                      let rc := GetFailureDetails e
                      ({ analysisSuccessful := false, failureReason := rc.1,
                         failureCategory := rc.2 }, n + 1)
                  | .ok reduceResult =>
                      ({ richDescription :=
                           "## Pull Request Analysis: " ++ title ++ "\n\n" ++
                             trimSpace reduceResult,
                         analysisSuccessful := true }, n + 1)

/-! ## Concrete sample data used by witnesses and counterexamples -/

/-- Minimal cached PR record: number 1, title "t", body "b", all
processing fields at their cached zero values. -/
def samplePR : PREmbedding :=
  { prNumber := 1, prTitle := "t", prBody := "b", author := "a",
    state := "closed", baseRef := "main", embedding := none,
    richDescription := none, analysisSuccessful := false,
    failureReason := none, failureCategory := none, processedAt := none }

/-- Same record with a stored one-dimensional embedding. -/
def samplePRWithEmbedding : PREmbedding :=
  { samplePR with embedding := some [1] }

/-- Trace response with one fully resolved component and no errors. -/
def sampleCleanResponse : TraceImagesResponse :=
  { commitSHA := "c", environment := "int",
    components := [{ name := "maestro", registry := "reg",
                     repository := "repo", digest := "sha256:d",
                     sourceSHA := some "s", sourceRepoURL := some "u",
                     error := none }],
    errors := [] }

/-- Trace response with a top-level error. -/
def sampleErrorResponse : TraceImagesResponse :=
  { commitSHA := "c", environment := "int", components := [],
    errors := ["environment config not found"] }

/-- Cache row holding the clean response at timestamp 1. -/
def sampleCacheRow : TraceImageCache :=
  { commitSHA := "old", environment := "int",
    response := sampleCleanResponse, insertedAt := 1 }

/-- One chunk document for the diff analyzer. -/
def sampleDoc : Document :=
  { filePath := "f.go", content := "diff body", tokenCount := 1 }

/-! ## Claim theorems -/

/-- C1 (evaluation at the failing input): in `processSinglePR`
(src/unnamed/part_013) for PR #1 with an enabled analyzer that returns
the rich description "R" and a successful embedding call, the trace of
effects places the embedding call FIRST and the analyzer call after
it, and the document sent to the embedder is built with an empty rich
description — it is not the document the claim prescribes (which would
carry an "AI Analysis" section). -/
theorem C1_embedding_runs_before_analyzer_at_failing_input :
    processSinglePR samplePR (fun _ => .ok [[1]]) true
        (fun _ => .ok { richDescription := "R", analysisSuccessful := true }) =
      [.embedCall "PR Title: t\n\nPR Description: b",
       .analyzeCall 1,
       .updateCall 1 true (some "R") true none none] ∧
    "PR Title: t\n\nPR Description: b" ≠ BuildDocument "t" "b" "R" := by
  exact ⟨rfl, by decide⟩

/-- C7 (evaluation at the failing input): `parseIntArgument` accepts
the JSON number 0 (which arrives as a `float64`), so the
`get_pr_details` adapter queries the Store for PR number 0 instead of
returning the "pr_number must be positive" error result; the sibling
`int` branch rejects 0 with exactly that message. -/
theorem C7_float_zero_is_accepted_and_store_is_queried :
    parseIntArgument (.float 0) = .ok 0 ∧
    GetPRDetailsToolAdapter (fun _ => none) (.float 0) =
      (.textResult 0 false, true) ∧
    parseIntArgument (.int 0) = .error "pr_number must be positive" := by
  exact ⟨rfl, rfl, rfl⟩

/-- C8: `StorePR` is idempotent — applying it twice with the same
record yields the same table as applying it once, and when a row with
the same `pr_number` already exists the insert is a no-op, so the
first stored record is never overwritten. -/
theorem C8_store_pr_idempotent (table : List PREmbedding)
    (pr : PREmbedding) :
    StorePR (StorePR table pr) pr = StorePR table pr ∧
    ((∃ r ∈ table, r.prNumber = pr.prNumber) → StorePR table pr = table) := by
  constructor
  · by_cases h : table.any (fun r => decide (r.prNumber = pr.prNumber))
    · simp only [StorePR, h, if_true]
    · simp only [StorePR, h, if_false]
      have hself : (table ++ [pr]).any
          (fun r => decide (r.prNumber = pr.prNumber)) = true := by
        simp [List.any_append]
      simp [hself]
  · intro hmem
    obtain ⟨r, hr, hnum⟩ := hmem
    have h : table.any (fun r => decide (r.prNumber = pr.prNumber)) = true := by
      simp only [List.any_eq_true, decide_eq_true_eq]
      exact ⟨r, hr, hnum⟩
    simp [StorePR, h]

/-- C8 witness: idempotence and the conflict no-op at the sample
record. -/
theorem C8_store_pr_idempotent_witness :
    StorePR (StorePR [] samplePR) samplePR = StorePR [] samplePR ∧
    StorePR [samplePR] samplePR = [samplePR] :=
  ⟨(C8_store_pr_idempotent [] samplePR).1,
   (C8_store_pr_idempotent [samplePR] samplePR).2
     ⟨samplePR, List.mem_singleton.mpr rfl, rfl⟩⟩

/-- C9: a query that is blank after trimming makes both search
handlers return an empty result list without error and without any
embedding call. -/
theorem C9_blank_query_empty_result_no_embedding
    (embed : String → Except String (List (List Rat)))
    (dist : List Rat → List Rat → Rat) (prTable : List PREmbedding)
    (docTable : List DocumentChunk) (query : String) (limit : Int)
    (component repo : Option String) (h : trimSpace query = "") :
    DBSearchServiceSearchPRs embed dist prTable query limit = (.ok [], 0) ∧
    DBSearchServiceSearchDocs embed dist docTable query limit component repo =
      (.ok [], 0) := by
  constructor
  · simp [DBSearchServiceSearchPRs, h]
  · simp [DBSearchServiceSearchDocs, h]

/-- C9 witness: the whitespace-only query " \t " is blank after
trimming and yields empty results with zero embedding calls. -/
theorem C9_blank_query_empty_result_no_embedding_witness :
    DBSearchServiceSearchPRs (fun _ => .ok [[1]]) (fun _ _ => 0) [] " \t " 10 =
      (.ok [], 0) ∧
    DBSearchServiceSearchDocs (fun _ => .ok [[1]]) (fun _ _ => 0) [] " \t " 10
        none none = (.ok [], 0) :=
  C9_blank_query_empty_result_no_embedding (fun _ => .ok [[1]]) (fun _ _ => 0)
    [] [] " \t " 10 none none (by decide)

/-- C2: on a cache miss with a successful trace, the cache-aware
service writes the tracer's response to the cache exactly when neither
the top-level error list nor any component error is populated; the
response itself is returned to the caller in both cases. -/
theorem C2_cache_holds_only_successful_traces
    (commitSHA environment : String) (resp : TraceImagesResponse)
    (hc : commitSHA ≠ "") (he : environment ≠ "") :
    ServiceTraceImages commitSHA environment (.ok none) (.ok resp) =
      .ok { response := resp,
            cacheWrite := if hasErrors resp then none else some resp } := by
  unfold ServiceTraceImages
  rw [if_neg (by push_neg; exact ⟨hc, he⟩)]
  by_cases h : hasErrors resp <;> simp [h]

/-- C2 witness: at a concrete miss, a clean response is written to the
cache and an errored response is not. -/
theorem C2_cache_holds_only_successful_traces_witness :
    ServiceTraceImages "c" "int" (.ok none) (.ok sampleCleanResponse) =
      .ok { response := sampleCleanResponse,
            cacheWrite := some sampleCleanResponse } ∧
    ServiceTraceImages "c" "int" (.ok none) (.ok sampleErrorResponse) =
      .ok { response := sampleErrorResponse, cacheWrite := none } :=
  ⟨(C2_cache_holds_only_successful_traces "c" "int" sampleCleanResponse
      (by decide) (by decide)).trans rfl,
   (C2_cache_holds_only_successful_traces "c" "int" sampleErrorResponse
      (by decide) (by decide)).trans rfl⟩

/-- C6: when the chunk documents built from the filtered diff exceed
the hard cap of 100, `Analyze` fails with failure category
"large_diff" and makes zero LLM calls (no map, no reduce). -/
theorem C6_large_diff_cap_stops_before_llm
    (fetchDiff : Except String String)
    (splitFiles : String → List FileChunk)
    (filterGen : List FileChunk → List FileChunk × List FileChunk)
    (buildDocs : List FileChunk → List Document)
    (mapChunk : Document → Except LLMError String)
    (reduceSummary : List String → Except LLMError String)
    (title diffText : String)
    (hfetch : fetchDiff = .ok diffText)
    (hsplit : splitFiles diffText ≠ [])
    (hincl : (filterGen (splitFiles diffText)).1 ≠ [])
    (hcap : (buildDocs ((filterGen (splitFiles diffText)).1)).length > 100) :
    Analyze true fetchDiff splitFiles filterGen buildDocs mapChunk
        reduceSummary title =
      ({ richDescription := "", analysisSuccessful := false,
         failureReason := "large diff detected",
         failureCategory := "large_diff" }, 0) := by
  subst hfetch
  unfold Analyze
  simp only [not_true_eq_false, if_false]
  rw [if_neg hsplit, if_neg hincl, if_pos hcap]

/-- C6 witness: a diff splitting into one file whose chunking yields
101 documents triggers the large-diff failure with zero LLM calls. -/
theorem C6_large_diff_cap_stops_before_llm_witness :
    Analyze true (.ok "d") (fun _ => [{ path := "f", content := "c" }])
        (fun l => (l, [])) (fun _ => List.replicate 101 sampleDoc)
        (fun _ => .ok "m") (fun _ => .ok "r") "t" =
      ({ richDescription := "", analysisSuccessful := false,
         failureReason := "large diff detected",
         failureCategory := "large_diff" }, 0) :=
  C6_large_diff_cap_stops_before_llm (.ok "d")
    (fun _ => [{ path := "f", content := "c" }]) (fun l => (l, []))
    (fun _ => List.replicate 101 sampleDoc) (fun _ => .ok "m")
    (fun _ => .ok "r") "t" "d" rfl (by decide) (by decide) (by decide)

/-- C4 counterexample: with limit 0 and a table containing one row
with a stored embedding, `SearchPRs` returns one row (the limit
defaults to 10), so the result is not "at most 0 rows" as the claim
requires for every limit. -/
theorem C4_counterexample_limit_zero :
    (SearchPRs (fun _ _ => 0) [samplePRWithEmbedding] [1] 0).length = 1 ∧
    ¬((SearchPRs (fun _ _ => 0) [samplePRWithEmbedding] [1] 0).length ≤ 0) := by
  exact ⟨rfl, by decide⟩

/-- C4 (amended): for every positive limit, `SearchPRs` returns at
most that many rows, every returned row has a non-null embedding, and
the rows are ordered by non-decreasing distance to the query; a limit
of 0 or less instead defaults to 10. -/
theorem C4_search_prs_limit_embedding_sorted
    (dist : List Rat → List Rat → Rat) (table : List PREmbedding)
    (queryVec : List Rat) (limit : Int) (hpos : 0 < limit) :
    (SearchPRs dist table queryVec limit).length ≤ limit.toNat ∧
    (∀ row ∈ SearchPRs dist table queryVec limit, row.1.embedding.isSome) ∧
    List.Pairwise (fun a b : PREmbedding × Rat => a.2 ≤ b.2)
      (SearchPRs dist table queryVec limit) := by
  unfold SearchPRs
  rw [if_neg (not_le.mpr hpos)]
  refine ⟨List.length_take_le _ _, ?_, ?_⟩
  · intro row hrow
    have hmem : row ∈ (((table.filter (fun r => r.embedding.isSome)).map
        (fun r => (r, dist (r.embedding.getD []) queryVec))).insertionSort
          byDistance) := List.take_subset _ _ hrow
    have hmem₂ : row ∈ ((table.filter (fun r => r.embedding.isSome)).map
        (fun r => (r, dist (r.embedding.getD []) queryVec))) :=
      (List.perm_insertionSort byDistance _).mem_iff.mp hmem
    obtain ⟨r, hr, hrw⟩ := List.mem_map.mp hmem₂
    have := List.mem_filter.mp hr
    rw [← hrw]
    exact this.2
  · have hsorted : List.Sorted byDistance
        ((((table.filter (fun r => r.embedding.isSome)).map
          (fun r => (r, dist (r.embedding.getD []) queryVec))).insertionSort
            byDistance)) := List.sorted_insertionSort byDistance _
    exact List.Pairwise.sublist (List.take_sublist _ _) hsorted

/-- C4 witness: the amended properties hold at a concrete query over a
one-row table with limit 1. -/
theorem C4_search_prs_limit_embedding_sorted_witness :
    (SearchPRs (fun _ _ => 0) [samplePRWithEmbedding] [1] 1).length ≤
        (1 : Int).toNat ∧
    (∀ row ∈ SearchPRs (fun _ _ => 0) [samplePRWithEmbedding] [1] 1,
      row.1.embedding.isSome) ∧
    List.Pairwise (fun a b : PREmbedding × Rat => a.2 ≤ b.2)
      (SearchPRs (fun _ _ => 0) [samplePRWithEmbedding] [1] 1) :=
  C4_search_prs_limit_embedding_sorted (fun _ _ => 0) [samplePRWithEmbedding]
    [1] 1 (by decide)

/-- C3: `TraceImageCacheUpsert` is skipped when the configured maximum
is not positive; with a positive maximum the table afterwards holds at
most that many rows, and every row it dropped is no newer (by
`inserted_at`) than every row it kept. -/
theorem C3_trace_cache_upsert_bounded (traceCacheMax : Int)
    (table : List TraceImageCache) (c e : String)
    (resp : TraceImagesResponse) (now : Nat) :
    (traceCacheMax ≤ 0 →
      TraceImageCacheUpsert traceCacheMax table c e resp now = table) ∧
    (0 < traceCacheMax →
      (TraceImageCacheUpsert traceCacheMax table c e resp now).length ≤
          traceCacheMax.toNat ∧
        ∀ a ∈ TraceImageCacheUpsert traceCacheMax table c e resp now,
          ∀ b ∈ ((traceCacheInsert table c e resp now).insertionSort
              newerEq).drop traceCacheMax.toNat,
            b.insertedAt ≤ a.insertedAt) := by
  constructor
  · intro h
    simp [TraceImageCacheUpsert, h]
  · intro h
    have hne : ¬traceCacheMax ≤ 0 := not_le.mpr h
    constructor
    · simp only [TraceImageCacheUpsert, hne, if_false, traceCacheTrim]
      exact List.length_take_le _ _
    · intro a ha b hb
      simp only [TraceImageCacheUpsert, hne, if_false, traceCacheTrim] at ha
      have hsort : List.Pairwise newerEq
          ((traceCacheInsert table c e resp now).insertionSort newerEq) :=
        List.sorted_insertionSort newerEq _
      rw [← List.take_append_drop traceCacheMax.toNat
        ((traceCacheInsert table c e resp now).insertionSort newerEq)] at hsort
      exact (List.pairwise_append.mp hsort).2.2 a ha b hb

/-- C3 witness: a non-positive maximum leaves the table unchanged and
a maximum of 1 bounds the table to one row after the upsert. -/
theorem C3_trace_cache_upsert_bounded_witness :
    TraceImageCacheUpsert (-1) [sampleCacheRow] "c" "int"
        sampleCleanResponse 5 = [sampleCacheRow] ∧
    (TraceImageCacheUpsert 1 [sampleCacheRow] "c" "int"
        sampleCleanResponse 5).length ≤ (1 : Int).toNat :=
  ⟨(C3_trace_cache_upsert_bounded (-1) [sampleCacheRow] "c" "int"
      sampleCleanResponse 5).1 (by decide),
   ((C3_trace_cache_upsert_bounded 1 [sampleCacheRow] "c" "int"
      sampleCleanResponse 5).2 (by decide)).1⟩

/-- Helper: every chunk staged by `processParts` carries an index that
occurs in its input list. -/
theorem processParts_chunkIndex_mem (embed : String → Option (List Rat))
    (maxChunks : Int) (repoName path ref model : String)
    (ips : List (Nat × String)) :
    ∀ (count : Nat) (d : DocumentChunk),
      d ∈ (processParts embed maxChunks repoName path ref model count ips).1 →
      d.chunkIndex ∈ ips.map Prod.fst := by
  induction ips with
  | nil =>
      intro count d hd
      simp [processParts] at hd
  | cons hdp rest ih =>
      obtain ⟨idx, part⟩ := hdp
      intro count d hd
      by_cases hb : trimSpace part = ""
      · rw [processParts, if_pos hb] at hd
        exact List.mem_cons_of_mem _ (ih count d hd)
      · by_cases hcap : maxChunks > 0 ∧ maxChunks ≤ (count : Int)
        · rw [processParts, if_neg hb, if_pos hcap] at hd
          simp at hd
        · cases hembed : embed part with
          | none =>
              rw [processParts, if_neg hb, if_neg hcap, hembed] at hd
              exact List.mem_cons_of_mem _ (ih count d hd)
          | some vec =>
              rw [processParts, if_neg hb, if_neg hcap, hembed] at hd
              rcases List.mem_cons.mp hd with h | h
              · subst h
                simp [mkIngestedChunk]
              · exact List.mem_cons_of_mem _ (ih (count + 1) d h)

/-- Helper: when the input indices are strictly increasing, the staged
chunk indices of `processParts` are strictly increasing. -/
theorem processParts_chunkIndex_pairwise (embed : String → Option (List Rat))
    (maxChunks : Int) (repoName path ref model : String)
    (ips : List (Nat × String)) :
    ∀ (count : Nat),
      List.Pairwise (fun a b : Nat × String => a.1 < b.1) ips →
      List.Pairwise (· < ·)
        ((processParts embed maxChunks repoName path ref model count
          ips).1.map (fun d => d.chunkIndex)) := by
  induction ips with
  | nil =>
      intro count _
      simp [processParts]
  | cons hdp rest ih =>
      obtain ⟨idx, part⟩ := hdp
      intro count hp
      rw [List.pairwise_cons] at hp
      obtain ⟨h1, h2⟩ := hp
      by_cases hb : trimSpace part = ""
      · rw [processParts, if_pos hb]
        exact ih count h2
      · by_cases hcap : maxChunks > 0 ∧ maxChunks ≤ (count : Int)
        · rw [processParts, if_neg hb, if_pos hcap]
          simp
        · cases hembed : embed part with
          | none =>
              rw [processParts, if_neg hb, if_neg hcap, hembed]
              exact ih count h2
          | some vec =>
              rw [processParts, if_neg hb, if_neg hcap, hembed]
              simp only [List.map_cons]
              refine List.Pairwise.cons ?_ (ih (count + 1) h2)
              intro y hy
              rw [List.mem_map] at hy
              obtain ⟨d, hd, rfl⟩ := hy
              have hidx := processParts_chunkIndex_mem embed maxChunks repoName
                path ref model rest (count + 1) d hd
              rw [List.mem_map] at hidx
              obtain ⟨p', hp', heq⟩ := hidx
              have hlt := h1 p' hp'
              rw [heq] at hlt
              simpa [mkIngestedChunk] using hlt

/-- C5 (amended): within one file at one commit the stored
`chunk_index` values are strictly increasing (monotonic); they are the
positions of the surviving chunks in the splitter's output, so gaps
appear where blank chunks or chunks with failed embedding calls were
skipped. -/
theorem C5_chunk_indices_strictly_monotonic
    (embed : String → Option (List Rat)) (maxChunks : Int)
    (repoName path ref model : String) (count : Nat)
    (parts : List String) :
    List.Pairwise (· < ·)
      ((processParts embed maxChunks repoName path ref model count
        parts.enum).1.map (fun d => d.chunkIndex)) := by
  apply processParts_chunkIndex_pairwise
  have h : List.Pairwise (· < ·) (parts.enum.map Prod.fst) := by
    rw [List.enum_map_fst]
    exact List.pairwise_lt_range _
  exact (List.pairwise_map).mp h

/-- C5 counterexample: a file whose splitter output is
["a", " ", "b"] (the middle chunk blank) stages chunk indices 0 and 2
for that file — monotonic, but not the contiguous 0, 1, 2, ... the
claim requires. -/
theorem C5_counterexample_gap_in_chunk_indices :
    (ingestRepoAtomic (fun _ => ["a", " ", "b"]) (fun _ => some [1]) 0 []
        "r" "c" "m" [("f", some "x")]).map
        (fun rows => rows.map (fun d => d.chunkIndex)) = .ok [0, 2] ∧
    [0, 2] ≠ List.range 2 := by
  exact ⟨rfl, by decide⟩

/-- Helper: once the chunk cap is reached, the parts loop stages
nothing more. -/
theorem processParts_at_cap (embed : String → Option (List Rat))
    (maxChunks : Int) (repoName path ref model : String)
    (hpos : maxChunks > 0) (ips : List (Nat × String)) :
    ∀ (count : Nat), maxChunks ≤ (count : Int) →
      processParts embed maxChunks repoName path ref model count ips =
        ([], count) := by
  induction ips with
  | nil =>
      intro count _
      rfl
  | cons hdp rest ih =>
      obtain ⟨idx, part⟩ := hdp
      intro count hle
      by_cases hb : trimSpace part = ""
      · rw [processParts, if_pos hb]
        exact ih count hle
      · rw [processParts, if_neg hb, if_pos ⟨hpos, hle⟩]

/-- Helper: once the chunk cap is reached, the file loop stages
nothing more. -/
theorem processFiles_at_cap (split : String → List String)
    (embed : String → Option (List Rat)) (maxChunks : Int)
    (repoName ref model : String) (hpos : maxChunks > 0)
    (fs : List (String × Option String)) :
    ∀ (count : Nat), maxChunks ≤ (count : Int) →
      processFiles split embed maxChunks repoName ref model count fs =
        ([], count) := by
  cases fs with
  | nil =>
      intro count _
      rfl
  | cons f rest =>
      intro count hle
      rw [processFiles, if_pos ⟨hpos, hle⟩]

/-- Helper: a file whose content cannot be read contributes nothing
and does not stop the file loop. -/
theorem processFiles_skip_unreadable (split : String → List String)
    (embed : String → Option (List Rat)) (maxChunks : Int)
    (repoName ref model p : String)
    (pre : List (String × Option String)) :
    ∀ (count : Nat) (post : List (String × Option String)),
      processFiles split embed maxChunks repoName ref model count
          (pre ++ (p, none) :: post) =
        processFiles split embed maxChunks repoName ref model count
          (pre ++ post) := by
  induction pre with
  | nil =>
      intro count post
      by_cases hcap : maxChunks > 0 ∧ maxChunks ≤ (count : Int)
      · rw [List.nil_append, List.nil_append, processFiles, if_pos hcap,
          processFiles_at_cap split embed maxChunks repoName ref model
            hcap.1 post count hcap.2]
      · rw [List.nil_append, List.nil_append, processFiles, if_neg hcap]
  | cons f pre' ih =>
      intro count post
      by_cases hcap : maxChunks > 0 ∧ maxChunks ≤ (count : Int)
      · rw [List.cons_append, List.cons_append, processFiles, if_pos hcap,
          processFiles, if_pos hcap]
      · rw [List.cons_append, List.cons_append, processFiles, if_neg hcap,
          processFiles, if_neg hcap]
        cases hc : f.2 with
        | none =>
            simp only [hc]
            exact ih count post
        | some content =>
            simp only [hc]
            rw [ih _ post]

/-- Helper: a non-blank chunk whose embedding call fails contributes
nothing and does not stop the parts loop. -/
theorem processParts_skip_failed_embed (embed : String → Option (List Rat))
    (maxChunks : Int) (repoName path ref model : String) (idx : Nat)
    (part : String) (hblank : trimSpace part ≠ "")
    (hembed : embed part = none) (ipre : List (Nat × String)) :
    ∀ (count : Nat) (ipost : List (Nat × String)),
      processParts embed maxChunks repoName path ref model count
          (ipre ++ (idx, part) :: ipost) =
        processParts embed maxChunks repoName path ref model count
          (ipre ++ ipost) := by
  induction ipre with
  | nil =>
      intro count ipost
      by_cases hcap : maxChunks > 0 ∧ maxChunks ≤ (count : Int)
      · rw [List.nil_append, List.nil_append, processParts, if_neg hblank,
          if_pos hcap,
          processParts_at_cap embed maxChunks repoName path ref model
            hcap.1 ipost count hcap.2]
      · rw [List.nil_append, List.nil_append, processParts, if_neg hblank,
          if_neg hcap, hembed]
  | cons jp ipre' ih =>
      intro count ipost
      obtain ⟨j, q⟩ := jp
      by_cases hb : trimSpace q = ""
      · rw [List.cons_append, List.cons_append, processParts, if_pos hb,
          processParts, if_pos hb]
        exact ih count ipost
      · by_cases hcap : maxChunks > 0 ∧ maxChunks ≤ (count : Int)
        · rw [List.cons_append, List.cons_append, processParts, if_neg hb,
            if_pos hcap, processParts, if_neg hb, if_pos hcap]
        · cases hq : embed q with
          | none =>
              rw [List.cons_append, List.cons_append, processParts, if_neg hb,
                if_neg hcap, processParts, if_neg hb, if_neg hcap]
              simp only [hq]
              exact ih count ipost
          | some vec =>
              rw [List.cons_append, List.cons_append, processParts, if_neg hb,
                if_neg hcap, processParts, if_neg hb, if_neg hcap]
              simp only [hq]
              rw [ih _ ipost]

/-- C10: during docs ingestion a selected file whose content cannot be
read is skipped silently (the run over the list with that file equals
the run without it), a non-blank chunk whose embedding call fails is
likewise skipped silently, and the run with the unreadable file still
commits exactly the chunks staged from the remaining files, reporting
success for the repository. -/
theorem C10_read_and_embed_failures_silently_skipped
    (split : String → List String) (embed : String → Option (List Rat))
    (maxChunks : Int) (table : List DocumentChunk)
    (repoName ref model p : String) (idx : Nat) (part : String)
    (pre post : List (String × Option String))
    (ipre ipost : List (Nat × String)) (count : Nat)
    (hblank : trimSpace part ≠ "") (hembed : embed part = none) :
    processFiles split embed maxChunks repoName ref model count
        (pre ++ (p, none) :: post) =
      processFiles split embed maxChunks repoName ref model count
        (pre ++ post) ∧
    processParts embed maxChunks repoName p ref model count
        (ipre ++ (idx, part) :: ipost) =
      processParts embed maxChunks repoName p ref model count
        (ipre ++ ipost) ∧
    ingestRepoAtomic split embed maxChunks table repoName ref model
        (pre ++ (p, none) :: post) =
      .ok (table.filter (fun d => d.repo ≠ repoName) ++
        (processFiles split embed maxChunks repoName ref model 0
          (pre ++ post)).1) := by
  refine ⟨processFiles_skip_unreadable split embed maxChunks repoName ref
      model p pre count post,
    processParts_skip_failed_embed embed maxChunks repoName p ref model idx
      part hblank hembed ipre count ipost, ?_⟩
  unfold ingestRepoAtomic
  rw [processFiles_skip_unreadable split embed maxChunks repoName ref model
    p pre 0 post]

/-- C10 witness: with one readable file, one unreadable file and one
chunk with a failing embedding, the run stages only the readable
chunks and commits them. -/
theorem C10_read_and_embed_failures_silently_skipped_witness :
    processFiles (fun _ => ["a"]) (fun s => if s = "bad" then none else some [1])
        0 "r" "c" "m" 0 ([("g", some "x")] ++ ("f", none) :: []) =
      processFiles (fun _ => ["a"]) (fun s => if s = "bad" then none else some [1])
        0 "r" "c" "m" 0 ([("g", some "x")] ++ []) ∧
    processParts (fun s => if s = "bad" then none else some [1]) 0 "r" "f" "c"
        "m" 0 ([(0, "a")] ++ (1, "bad") :: []) =
      processParts (fun s => if s = "bad" then none else some [1]) 0 "r" "f" "c"
        "m" 0 ([(0, "a")] ++ []) ∧
    ingestRepoAtomic (fun _ => ["a"]) (fun s => if s = "bad" then none else some [1])
        0 [] "r" "c" "m" ([("g", some "x")] ++ ("f", none) :: []) =
      .ok (List.filter (fun d => d.repo ≠ "r") [] ++
        (processFiles (fun _ => ["a"]) (fun s => if s = "bad" then none else some [1])
          0 "r" "c" "m" 0 ([("g", some "x")] ++ [])).1) :=
  C10_read_and_embed_failures_silently_skipped (fun _ => ["a"])
    (fun s => if s = "bad" then none else some [1]) 0 [] "r" "c" "m" "f" 1
    "bad" [("g", some "x")] [] [(0, "a")] [] 0 (by decide) (by decide)
